import Mathlib

/-!
# userlib: the User repository operations

A shallow embedding of `lib/userlib/user.go` (Insert, insert, Update, update,
IsValid, Sanitize, IsCorrectPassword, UserByID, ListUsers, Delete).

* Go errors are values of `Error`: either a raw Go error (`Cause`) or a
  go-core `*errors.Error` carrying a `Kind`, a message and the wrapped error.
* A method with a pointer receiver `(u *User)` that returns `error` becomes a
  function returning the error (`none` is Go's `nil`), the final value of `*u`
  and the database handle after the call.
* The database handle `*storage.DB` is a driver (a function from the state of
  the database and a statement to a result and a new state), the current state
  and the list of statements sent so far.
* The libraries the code calls but does not contain (structs.Sanitize,
  govalidator, bcrypt) are the fields of `Env`.
-/

set_option autoImplicit false

namespace Userlib

/-! ## Errors (go-core/errors) -/

/-- The kinds of go-core errors used by userlib; `Other` is the zero value of
an error that was given no kind. -/
inductive Kind
  | Other
  | NotFound
  | Conflict
  | Unprocessable
  | Unauthorized
  | Internal
deriving DecidableEq, Repr

/-- Raw Go error values, the ones that are not a go-core `*errors.Error`:
`sql.ErrNoRows`, a `*pq.Error` (with the value of `err.Code.Name()`), and every
other error value (connection failures, bcrypt, govalidator, `fmt.Errorf`). -/
inductive Cause
  | sqlErrNoRows
  | pqError (codeName : String)
  | other (msg : String)
deriving DecidableEq, Repr

/-- A Go `error`: a raw error value or a go-core `*errors.Error` with its
kind, message and wrapped error. -/
inductive Error
  | raw (c : Cause)
  | classified (kind : Kind) (msg : String) (err : Error)
deriving DecidableEq, Repr

/-- The kind of an error: the `Kind` field of a go-core error, `Other` for a
raw Go error. -/
def Error.kind : Error → Kind
  | .raw _ => Kind.Other
  | .classified k _ _ => k

/-- The message of an error: the message given to `errors.E`, empty for a raw
Go error. -/
def Error.msg : Error → String
  | .raw _ => ""
  | .classified _ m _ => m

/-- Modelled from the spec: `errors.E` of go-core, which is not part of the
sources. It builds an error that wraps `err` with the given kind and message
(spec 4.6: every error carries a kind, an underlying cause and an optional
message). A call without a kind argument is written with `Kind.Other`, a call
without a message with the empty string; when no kind is given the kind of the
wrapped error is kept, so that `errors.E(err)` passes a classification on. -/
def E (err : Error) (kind : Kind) (msg : String) : Error :=
  .classified (if kind = Kind.Other then err.kind else kind) msg err

/-- The function `errors.Is(err, sql.ErrNoRows)`: whether the error, or an
error it wraps, is `sql.ErrNoRows`. -/
def isErrNoRows : Error → Bool
  | .raw .sqlErrNoRows => true
  | .raw _ => false
  | .classified _ _ e => isErrNoRows e

/-! ## The User record -/

/-- The struct `User`; the two timestamps are instants counted by the
database clock. The zero value `User{}` is `default`. -/
structure User where
  ID : Int
  Email : String
  Password : String
  Description : String
  FirstName : String
  LastName : String
  CreatedAt : Nat
  UpdatedAt : Nat
deriving DecidableEq, Repr

instance : Inhabited User := ⟨⟨0, "", "", "", "", "", 0, 0⟩⟩

/-! ## The database handle -/

/-- The statements userlib sends to the database.
* `insertUser`: INSERT INTO users (email, password, firstname, lastname)
  VALUES ($1, $2, $3, $4) RETURNING *
* `updateUser`: UPDATE users SET password=$1, firstname=$2, lastname=$3
  WHERE id=$4 RETURNING *
* `selectUserByID`: SELECT * FROM users WHERE id=$1 LIMIT 1;
* `selectUsers`: the statement ListUsers builds, SELECT * FROM users with the
  predicate email = $1 when the email filter is set
* `deleteUser`: DELETE FROM users WHERE id=$1 -/
inductive Stmt
  | insertUser (email password firstname lastname : String)
  | updateUser (password firstname lastname : String) (id : Int)
  | selectUserByID (id : Int)
  | selectUsers (emailIs : Option String)
  | deleteUser (id : Int)
deriving DecidableEq, Repr

/-- The handle `*storage.DB`: the state of the database behind it, the
statements sent through it so far, and the driver, which runs one statement
on a state and gives the rows it returns or the driver error together with the
new state. -/
structure DB (σ : Type) where
  conn : σ
  log : List Stmt
  driver : σ → Stmt → Except Cause (List User) × σ

variable {σ : Type}

/-- The handle after statement `q` was sent and left the state `conn`. -/
def DB.sent (db : DB σ) (q : Stmt) (conn : σ) : DB σ :=
  { db with conn := conn, log := db.log ++ [q] }

/-- The method `db.Get` of sqlx: run the statement and scan the first row; a
result without rows is `sql.ErrNoRows`. -/
def DB.Get (db : DB σ) (q : Stmt) : Except Cause User × DB σ :=
  match db.driver db.conn q with
  | (.error c, conn) => (.error c, db.sent q conn)
  | (.ok [], conn) => (.error Cause.sqlErrNoRows, db.sent q conn)
  | (.ok (r :: _), conn) => (.ok r, db.sent q conn)

/-- The method `db.Select` of sqlx: run the statement and scan all rows. -/
def DB.Select (db : DB σ) (q : Stmt) : Except Cause (List User) × DB σ :=
  match db.driver db.conn q with
  | (.error c, conn) => (.error c, db.sent q conn)
  | (.ok rows, conn) => (.ok rows, db.sent q conn)

/-- The method `db.Exec`: run the statement and drop the rows. -/
def DB.Exec (db : DB σ) (q : Stmt) : Except Cause Unit × DB σ :=
  match db.driver db.conn q with
  | (.error c, conn) => (.error c, db.sent q conn)
  | (.ok _, conn) => (.ok (), db.sent q conn)

/-! ## The libraries -/

/-- The constant `bcrypt.DefaultCost`. -/
def DefaultCost : Nat := 10

/-- White space in the sense of Go's `unicode.IsSpace`. -/
def isSpace (c : Char) : Bool :=
  let n := c.toNat
  (9 ≤ n && n ≤ 13) || n == 32 || n == 0x85 || n == 0xA0 || n == 0x1680
    || (0x2000 ≤ n && n ≤ 0x200A) || n == 0x2028 || n == 0x2029 || n == 0x202F
    || n == 0x205F || n == 0x3000

/-- Go's `strings.TrimSpace`: drop the leading and the trailing white space. -/
def trimSpace (s : String) : String :=
  String.mk ((s.data.dropWhile isSpace).reverse.dropWhile isSpace).reverse

/-- The outcome of the library calls of userlib:
* `sanitizeFault u`: the error `structs.Sanitize(u)` returns, if any;
* `validateStruct u`: the error of `govalidator.ValidateStruct(u)`, if any;
* `generateFromPassword p cost`: `bcrypt.GenerateFromPassword`;
* `compareHashAndPassword h p`: the error of `bcrypt.CompareHashAndPassword`,
  `none` when the password matches the hash;
* `hash_ne`: bcrypt is a one-way hash (spec 4.5: its output is stored in place
  of the plaintext), so a hash is never the password it was generated from,
  also not up to white space around the two. -/
structure Env where
  sanitizeFault : User → Option Cause
  validateStruct : User → Option Cause
  generateFromPassword : String → Nat → Except Cause String
  compareHashAndPassword : String → String → Option Cause
  hash_ne : ∀ (p : String) (cost : Nat) (h : String),
    generateFromPassword p cost = .ok h → trimSpace h ≠ trimSpace p

/-- The user with every string field trimmed. -/
def User.trimmed (u : User) : User :=
  { u with
    Email := trimSpace u.Email
    Password := trimSpace u.Password
    Description := trimSpace u.Description
    FirstName := trimSpace u.FirstName
    LastName := trimSpace u.LastName }

/-- The function `structs.Sanitize` of go-core: it removes all leading and
trailing white space from the string fields of the struct, or fails. -/
def structsSanitize (env : Env) (u : User) : Except Cause User :=
  match env.sanitizeFault u with
  | some c => .error c
  | none => .ok u.trimmed

/-! ## userlib -/

/-- What a method of `*User` leaves behind: the returned error, the value of
`*u` and the database handle. -/
structure Ret (σ : Type) where
  err : Option Error
  u : User
  db : DB σ

/-- The method `User.Sanitize`. -/
def User.Sanitize (env : Env) (u : User) : Option Error × User :=
  match structsSanitize env u with
  | .error c => (some (E (.raw c) Kind.Internal ""), u)
  | .ok u1 => (none, u1)

/-- The method `User.IsValid`. -/
def User.IsValid (env : Env) (u : User) : Option Error :=
  match env.validateStruct u with
  | some c => some (E (.raw c) Kind.Unprocessable "")
  | none => none

/-- The method `User.IsCorrectPassword`. -/
def User.IsCorrectPassword (env : Env) (u : User) (password : String) : Option Error :=
  match env.compareHashAndPassword u.Password password with
  | some c => some (E (.raw c) Kind.Unauthorized "Password is incorrect")
  | none => none

/-- The method `User.insert`: the physical insert. -/
def User.insert (u : User) (db : DB σ) : Ret σ :=
  match db.Get (Stmt.insertUser u.Email u.Password u.FirstName u.LastName) with
  | (.error c, db1) => ⟨some (E (.raw c) Kind.Internal ""), u, db1⟩
  | (.ok returned, db1) => ⟨none, returned, db1⟩

/-- The method `User.update`: the physical update. -/
def User.update (u : User) (db : DB σ) : Ret σ :=
  match db.Get (Stmt.updateUser u.Password u.FirstName u.LastName u.ID) with
  | (.error c, db1) => ⟨some (E (.raw c) Kind.Internal ""), u, db1⟩
  | (.ok returned, db1) => ⟨none, returned, db1⟩

/-- The function `UserByID`. -/
def UserByID (id : Int) (db : DB σ) : User × Option Error × DB σ :=
  match db.Get (Stmt.selectUserByID id) with
  | (.error c, db1) =>
    if isErrNoRows (.raw c) then (default, some (E (.raw c) Kind.NotFound ""), db1)
    else (default, some (E (.raw c) Kind.Internal ""), db1)
  | (.ok u, db1) => (u, none, db1)

/-- The type `sqlutil.StringFilter`, with the slot userlib sets. -/
structure StringFilter where
  Is : Option String
deriving DecidableEq, Repr

/-- The type `UserFilter`, with the field userlib sets. -/
structure UserFilter where
  Email : Option StringFilter
deriving DecidableEq, Repr

/-- The type `UserListParams`; pagination and sort are left at their zero
values by userlib. -/
structure UserListParams where
  Filter : UserFilter
deriving DecidableEq, Repr

/-- Modelled from the spec: the query building of `pkg/sqlutil` (Select, From,
UseStructFilter, UseLimitOffsetPagination, GetColumnMapping, UseOneColumnSort,
ToSql), which is not part of the sources. Spec 4.3: start from
SELECT * FROM users and append one bound predicate for each set slot of each
non-nil filter; an unset filter contributes no predicate. -/
def buildListQuery (params : UserListParams) : Except Error Stmt :=
  match params.Filter.Email with
  | some f => .ok (Stmt.selectUsers f.Is)
  | none => .ok (Stmt.selectUsers none)

/-- The function `ListUsers`. -/
def ListUsers (params : UserListParams) (db : DB σ) : List User × Option Error × DB σ :=
  match buildListQuery params with
  | .error err => ([], some (E err Kind.Other ""), db)
  | .ok q =>
    match db.Select q with
    | (.error c, db1) => ([], some (E (.raw c) Kind.Internal ""), db1)
    | (.ok us, db1) => (us, none, db1)

/-- The function `getUserIDs`. -/
def getUserIDs (os : List User) : List Int :=
  os.foldl (fun ids u => ids ++ [u.ID]) []

/-- The method `User.Insert`. -/
def User.Insert (env : Env) (u : User) (db : DB σ) : Ret σ :=
  match User.Sanitize env u with
  | (some err, u) => ⟨some (E err Kind.Other ""), u, db⟩
  | (none, u) =>
    match User.IsValid env u with
    | some err => ⟨some (E err Kind.Unprocessable ""), u, db⟩
    | none =>
      match env.generateFromPassword u.Password DefaultCost with
      | .error c => ⟨some (E (.raw c) Kind.Internal ""), u, db⟩
      | .ok hashedPassword =>
        let u := { u with Password := hashedPassword }
        match ListUsers ⟨⟨some ⟨some u.Email⟩⟩⟩ db with
        | (_, some err, db) => ⟨some (E err Kind.Other ""), u, db⟩
        | (us, none, db) =>
          if us.length ≠ 0 then
            let msg := "user with email " ++ u.Email ++ " does already exist"
            ⟨some (E (.raw (.other msg)) Kind.Conflict msg), u, db⟩
          else
            match User.insert u db with
            | ⟨some err, u, db⟩ => ⟨some (E err Kind.Other ""), u, db⟩
            | ⟨none, u, db⟩ => ⟨none, u, db⟩

/-- The method `User.Update`; `oldPassword` is `none` for a nil pointer. -/
def User.Update (env : Env) (u : User) (oldHashedPassword : String)
    (oldPassword : Option String) (db : DB σ) : Ret σ :=
  match User.Sanitize env u with
  | (some err, u) => ⟨some (E err Kind.Other ""), u, db⟩
  | (none, u) =>
    match User.IsValid env u with
    | some err => ⟨some (E err Kind.Unprocessable ""), u, db⟩
    | none =>
      let physical (u : User) : Ret σ :=
        match User.update u db with
        | ⟨some err, u, db⟩ => ⟨some (E err Kind.Other ""), u, db⟩
        | ⟨none, u, db⟩ => ⟨none, u, db⟩
      match oldPassword with
      | some old =>
        if u.Password ≠ oldHashedPassword then
          match env.compareHashAndPassword oldHashedPassword old with
          | some c => ⟨some (E (.raw c) Kind.Unprocessable "OldPassword is incorrect"), u, db⟩
          | none =>
            match env.generateFromPassword u.Password DefaultCost with
            | .error c => ⟨some (E (.raw c) Kind.Internal "Internal server error"), u, db⟩
            | .ok hashedPassword => physical { u with Password := hashedPassword }
        else physical u
      | none => physical u

/-- The method `User.Delete`. A `*pq.Error` whose code is not
foreign_key_violation leaves both switches and reaches the final
`return nil`. -/
def User.Delete (u : User) (db : DB σ) : Option Error × DB σ :=
  match db.Exec (Stmt.deleteUser u.ID) with
  | (.error c, db1) =>
    match c with
    | .pqError codeName =>
      if codeName = "foreign_key_violation" then
        (some (E (.raw (.other ("User is still referenced for ID: " ++ toString u.ID)))
          Kind.Unprocessable ""), db1)
      else (none, db1)
    | _ => (some (E (.raw c) Kind.Internal ""), db1)
  | (.ok _, db1) => (none, db1)

/-! ## The users table -/

/-- Modelled from the spec: the state of the relational store, which is not
part of the sources. Spec 6: the users table has a server-assigned integer
primary key, a unique address, the secret hash, free-text attributes and two
timestamps maintained by the store. `nextID` is the next value of the
identifier sequence, `now` the clock, `descriptionDefault` the default of the
description column and `referenced` the identifiers that dependent rows of
other tables point to. -/
structure Table where
  rows : List User
  nextID : Int
  now : Nat
  descriptionDefault : String
  referenced : List Int
deriving DecidableEq, Repr

/-- Modelled from the spec: the store running one statement (spec 4.4, 5 and
6). An insert is rejected with unique_violation when the address or the
identifier is taken, and otherwise appends the row with the next identifier;
an update by identifier sets password, firstname, lastname and the
modification time of the rows with that identifier; a delete is rejected with
foreign_key_violation when the row is still referenced. A rejected statement
leaves the table as it was. -/
def pgRun (t : Table) : Stmt → Except Cause (List User) × Table
  | .insertUser email password firstname lastname =>
    if t.rows.any (fun r => decide (r.Email = email) || decide (r.ID = t.nextID)) then
      (.error (Cause.pqError "unique_violation"), t)
    else
      let row : User := ⟨t.nextID, email, password, t.descriptionDefault, firstname, lastname,
        t.now, t.now⟩
      (.ok [row], { t with rows := t.rows ++ [row], nextID := t.nextID + 1, now := t.now + 1 })
  | .updateUser password firstname lastname id =>
    let upd (r : User) : User :=
      if r.ID = id then
        { r with Password := password, FirstName := firstname, LastName := lastname,
                 UpdatedAt := t.now }
      else r
    (.ok ((t.rows.map upd).filter (fun r => decide (r.ID = id))),
      { t with rows := t.rows.map upd, now := t.now + 1 })
  | .selectUserByID id => (.ok ((t.rows.filter (fun r => decide (r.ID = id))).take 1), t)
  | .selectUsers (some email) => (.ok (t.rows.filter (fun r => decide (r.Email = email))), t)
  | .selectUsers none => (.ok t.rows, t)
  | .deleteUser id =>
    if id ∈ t.referenced ∧ (t.rows.any (fun r => decide (r.ID = id))) = true then
      (.error (Cause.pqError "foreign_key_violation"), t)
    else (.ok [], { t with rows := t.rows.filter (fun r => decide (r.ID ≠ id)) })

/-- A handle on the table `t`, with nothing sent yet. -/
def pgDB (t : Table) : DB Table := ⟨t, [], pgRun⟩

/-! ## A sample environment -/

/-- A sample of the libraries, for evaluating the operations: sanitation never
fails, validation asks for an address with an at sign and a password of 8 to
99 characters, and the hash of a password is the password behind a marker. -/
def sampleEnv : Env where
  sanitizeFault := fun _ => none
  validateStruct := fun u =>
    if u.Email.data.contains '@' ∧ 8 ≤ u.Password.length ∧ u.Password.length ≤ 99 then none
    else some (Cause.other "validation failed")
  generateFromPassword := fun p _ => .ok ("$2a$10$" ++ p)
  compareHashAndPassword := fun h p =>
    if h = "$2a$10$" ++ p then none
    else some (Cause.other "crypto/bcrypt: hashedPassword is not the hash of the given password")
  hash_ne := by
    intro p cost h hg heq
    have hh : "$2a$10$" ++ p = h := by
      injection hg
    subst hh
    have front : ∀ l : List Char,
        ("$2a$10$".data ++ l).dropWhile isSpace = "$2a$10$".data ++ l := fun _ => rfl
    have back : ∀ xs : List Char,
        (xs ++ "$2a$10$".data.reverse).dropWhile isSpace
          = xs.dropWhile isSpace ++ "$2a$10$".data.reverse := by
      intro xs
      induction xs with
      | nil => rfl
      | cons x xs ih =>
        by_cases hx : isSpace x = true
        · simp only [List.cons_append, List.dropWhile_cons, hx, if_true]
          exact ih
        · simp only [List.cons_append, List.dropWhile_cons, hx]
          simp
    have mono : ∀ xs zs : List Char,
        (xs.dropWhile isSpace).length ≤ ((xs ++ zs).dropWhile isSpace).length := by
      intro xs zs
      induction xs with
      | nil => simp
      | cons x xs ih =>
        by_cases hx : isSpace x = true
        · simp only [List.cons_append, List.dropWhile_cons, hx, if_true]
          exact ih
        · simp [List.dropWhile_cons, hx]
    have hlen := congrArg String.length heq
    have h1 : (trimSpace ("$2a$10$" ++ p)).length
        = (p.data.reverse.dropWhile isSpace).length + 7 := by
      show (((("$2a$10$" ++ p).data.dropWhile isSpace).reverse.dropWhile isSpace).reverse).length
        = _
      rw [String.data_append, front, List.reverse_append, back]
      simp
    have h2 : (trimSpace p).length ≤ (p.data.reverse.dropWhile isSpace).length := by
      show ((((p.data.dropWhile isSpace).reverse.dropWhile isSpace).reverse).length) ≤ _
      rw [List.length_reverse]
      have hsplit : p.data.reverse
          = (p.data.dropWhile isSpace).reverse ++ (p.data.takeWhile isSpace).reverse := by
        rw [← List.reverse_append, List.takeWhile_append_dropWhile]
      calc ((p.data.dropWhile isSpace).reverse.dropWhile isSpace).length
          ≤ (((p.data.dropWhile isSpace).reverse
              ++ (p.data.takeWhile isSpace).reverse).dropWhile isSpace).length := mono _ _
        _ = (p.data.reverse.dropWhile isSpace).length := by rw [← hsplit]
    omega

/-- A sample of the libraries in which `structs.Sanitize` fails. -/
def faultyEnv : Env :=
  { sampleEnv with sanitizeFault := fun _ => some (Cause.other "sanitize: not a struct pointer") }

/-- A sample input: a new user with white space around the fields. -/
def alice : User := ⟨0, " a@x.com ", "correct horse", "about me", "Alice ", " Liddell", 0, 0⟩

/-- A sample table with one row and no references. -/
def table1 : Table :=
  ⟨[⟨1, "b@x.com", "$2a$10$old secret", "", "Bob", "Builder", 3, 3⟩], 2, 7, "", []⟩

/-- A driver over a store without state that answers every statement with the
PostgreSQL error deadlock_detected. -/
def deadlockDriver (_ : Unit) (_ : Stmt) : Except Cause (List User) × Unit :=
  (.error (Cause.pqError "deadlock_detected"), ())

/-- A handle whose statements all fail with deadlock_detected. -/
def deadlockDB : DB Unit := ⟨(), [], deadlockDriver⟩

/-- A driver that shows a concurrent insert of the same address: the probe
sees no row, and the insert is rejected by the unique constraint. -/
def racingDriver (_ : Unit) : Stmt → Except Cause (List User) × Unit
  | .insertUser _ _ _ _ => (.error (Cause.pqError "unique_violation"), ())
  | _ => (.ok [], ())

/-- A handle on the racing driver. -/
def racingDB : DB Unit := ⟨(), [], racingDriver⟩

/-- A sample update: the stored user of `table1` with a new plaintext
password in the Password field. -/
def bobNew : User := ⟨1, "b@x.com", "new secret 1", "", "Bob", "B", 0, 0⟩

/-- The row an accepted INSERT of the sanitized user `u` with password hash
`h` adds to the table `t`. -/
def insertedRow (t : Table) (u : User) (h : String) : User :=
  ⟨t.nextID, trimSpace u.Email, h, t.descriptionDefault, trimSpace u.FirstName,
    trimSpace u.LastName, t.now, t.now⟩

/-- The table `t` after an accepted INSERT of `row`. -/
def Table.withRow (t : Table) (row : User) : Table :=
  { t with rows := t.rows ++ [row], nextID := t.nextID + 1, now := t.now + 1 }

/-- The row `r` after the UPDATE of userlib for identifier `id`. -/
def updatedRow (t : Table) (password firstname lastname : String) (id : Int) (r : User) : User :=
  if r.ID = id then
    { r with Password := password, FirstName := firstname, LastName := lastname,
             UpdatedAt := t.now }
  else r

/-! ## Theorems -/

theorem trimmed_ID (u : User) : u.trimmed.ID = u.ID := rfl
theorem trimmed_Email (u : User) : u.trimmed.Email = trimSpace u.Email := rfl
theorem trimmed_Password (u : User) : u.trimmed.Password = trimSpace u.Password := rfl
theorem trimmed_Description (u : User) :
    u.trimmed.Description = trimSpace u.Description := rfl
theorem trimmed_FirstName (u : User) : u.trimmed.FirstName = trimSpace u.FirstName := rfl
theorem trimmed_LastName (u : User) : u.trimmed.LastName = trimSpace u.LastName := rfl

/-- An explicit kind given to `errors.E` is the kind of the result. -/
theorem E_kind_of_ne_other (err : Error) (kind : Kind) (msg : String)
    (h : kind ≠ Kind.Other) : (E err kind msg).kind = kind := by
  simp [E, Error.kind, h]

/-- Without a kind, `errors.E` keeps the kind of the wrapped error. -/
theorem E_kind_other (err : Error) (msg : String) :
    (E err Kind.Other msg).kind = err.kind := by
  simp [E, Error.kind]

/-- C7: UserByID returns the fetched row and a nil error when the single-row
fetch succeeds; it returns the zero-valued User and an error of kind NotFound
when the fetch reports sql.ErrNoRows, and an error of kind Internal for every
other fetch failure; so the kind is NotFound exactly when the fetch reports no
rows. -/
theorem UserByID_classification (id : Int) (db : DB σ) :
    (∀ u db1, db.Get (Stmt.selectUserByID id) = (.ok u, db1) →
        UserByID id db = (u, none, db1)) ∧
    (∀ db1, db.Get (Stmt.selectUserByID id) = (.error Cause.sqlErrNoRows, db1) →
        ∃ e, UserByID id db = (default, some e, db1) ∧ e.kind = Kind.NotFound) ∧
    (∀ c db1, db.Get (Stmt.selectUserByID id) = (.error c, db1) → c ≠ Cause.sqlErrNoRows →
        ∃ e, UserByID id db = (default, some e, db1) ∧ e.kind = Kind.Internal) ∧
    ((∃ e, (UserByID id db).2.1 = some e ∧ e.kind = Kind.NotFound) ↔
        (db.Get (Stmt.selectUserByID id)).1 = .error Cause.sqlErrNoRows) := by
  refine ⟨?_, ?_, ?_, ?_⟩
  · intro u db1 h
    simp [UserByID, h]
  · intro db1 h
    refine ⟨E (.raw Cause.sqlErrNoRows) Kind.NotFound "", ?_, ?_⟩
    · simp [UserByID, h, isErrNoRows]
    · simp [E, Error.kind]
  · intro c db1 h hc
    refine ⟨E (.raw c) Kind.Internal "", ?_, ?_⟩
    · cases c <;> simp_all [UserByID, isErrNoRows]
    · simp [E, Error.kind]
  · rcases hg : db.Get (Stmt.selectUserByID id) with ⟨res, db1⟩
    cases res with
    | ok u => simp [UserByID, hg]
    | error c => cases c <;> simp [UserByID, hg, isErrNoRows, E, Error.kind]

/-- Witness of C7 on the sample table: identifier 1 is fetched, identifier 5
is not found. -/
theorem UserByID_classification_witness :
    UserByID 1 (pgDB table1) =
        (⟨1, "b@x.com", "$2a$10$old secret", "", "Bob", "Builder", 3, 3⟩, none,
          (pgDB table1).sent (Stmt.selectUserByID 1) table1) ∧
    (∃ e, UserByID 5 (pgDB table1) =
        (default, some e, (pgDB table1).sent (Stmt.selectUserByID 5) table1) ∧
        e.kind = Kind.NotFound) ∧
    (∃ e, UserByID 1 deadlockDB = (default, some e, deadlockDB.sent (Stmt.selectUserByID 1) ()) ∧
        e.kind = Kind.Internal) :=
  ⟨(UserByID_classification 1 (pgDB table1)).1 _ _ rfl,
   (UserByID_classification 5 (pgDB table1)).2.1 _ rfl,
   (UserByID_classification 1 deadlockDB).2.2.1 _ _ rfl (by decide)⟩

/-- C2: when the DELETE fails with a driver error of type pq.Error whose code
is not foreign_key_violation (here deadlock_detected), Delete returns nil,
although the statement did not succeed. -/
theorem Delete_pq_error_returns_nil :
    (deadlockDB.Exec (Stmt.deleteUser bobNew.ID)).1 = .error (Cause.pqError "deadlock_detected") ∧
    (User.Delete bobNew deadlockDB).1 = none :=
  ⟨rfl, by decide⟩

/-- The classification Delete does make: a foreign-key violation gives kind
Unprocessable, a failure that is not a pq.Error gives kind Internal, and a
successful statement gives nil. -/
theorem Delete_classified_cases (u : User) (db : DB σ) :
    (∀ db1, db.Exec (Stmt.deleteUser u.ID) = (.error (Cause.pqError "foreign_key_violation"), db1) →
        ∃ e, User.Delete u db = (some e, db1) ∧ e.kind = Kind.Unprocessable) ∧
    (∀ c db1, db.Exec (Stmt.deleteUser u.ID) = (.error c, db1) → (∀ n, c ≠ Cause.pqError n) →
        ∃ e, User.Delete u db = (some e, db1) ∧ e.kind = Kind.Internal) ∧
    (∀ db1, db.Exec (Stmt.deleteUser u.ID) = (.ok (), db1) → User.Delete u db = (none, db1)) := by
  refine ⟨?_, ?_, ?_⟩
  · intro db1 h
    exact ⟨E (.raw (.other ("User is still referenced for ID: " ++ toString u.ID)))
      Kind.Unprocessable "", by simp [User.Delete, h], by simp [E, Error.kind]⟩
  · intro c db1 h hc
    refine ⟨E (.raw c) Kind.Internal "", ?_, by simp [E, Error.kind]⟩
    cases c with
    | pqError n => exact absurd rfl (hc n)
    | sqlErrNoRows => simp [User.Delete, h]
    | other m => simp [User.Delete, h]
  · intro db1 h
    simp [User.Delete, h]

/-- C1: an Update whose Password field holds a new plaintext, called with a
nil oldPassword, passes sanitation and validation, skips the hashing branch and
binds the plaintext to the UPDATE statement, which stores it. -/
theorem Update_nil_oldPassword_stores_plaintext :
    bobNew.Password ≠ "$2a$10$old secret" ∧
    (User.Update sampleEnv bobNew "$2a$10$old secret" none (pgDB table1)).err = none ∧
    (User.Update sampleEnv bobNew "$2a$10$old secret" none (pgDB table1)).db.log =
      [Stmt.updateUser "new secret 1" "Bob" "B" 1] ∧
    (User.Update sampleEnv bobNew "$2a$10$old secret" none (pgDB table1)).db.conn.rows.map
      (fun r => r.Password) = [bobNew.Password] := by
  decide

/-- C3 as stated fails: a secret change with a wrong old plaintext passes
sanitation and validation, and the error Update returns has kind
Unprocessable, not Unauthorized. -/
theorem Update_wrong_old_password_not_unauthorized :
    sampleEnv.sanitizeFault bobNew = none ∧
    sampleEnv.validateStruct bobNew.trimmed = none ∧
    bobNew.trimmed.Password ≠ "$2a$10$old secret" ∧
    sampleEnv.compareHashAndPassword "$2a$10$old secret" "wrong" ≠ none ∧
    ((User.Update sampleEnv bobNew "$2a$10$old secret" (some "wrong") (pgDB table1)).err.map
      Error.kind) = some Kind.Unprocessable ∧
    ((User.Update sampleEnv bobNew "$2a$10$old secret" (some "wrong") (pgDB table1)).err.map
      Error.kind) ≠ some Kind.Unauthorized := by
  decide

/-- C3, amended: when Update passes sanitation and validation, the sanitized
Password differs from oldHashedPassword, oldPassword is supplied and does not
verify against oldHashedPassword, Update returns an error of kind
Unprocessable with the message "OldPassword is incorrect", wrapping the error
of the comparison. -/
theorem Update_wrong_old_password_unprocessable (env : Env) (u : User)
    (oldHashedPassword old : String) (db : DB σ) (c : Cause)
    (hs : env.sanitizeFault u = none)
    (hv : env.validateStruct u.trimmed = none)
    (hp : u.trimmed.Password ≠ oldHashedPassword)
    (hc : env.compareHashAndPassword oldHashedPassword old = some c) :
    ∃ e, (User.Update env u oldHashedPassword (some old) db).err = some e ∧
      e.kind = Kind.Unprocessable ∧ e.msg = "OldPassword is incorrect" ∧
      e = Error.classified Kind.Unprocessable "OldPassword is incorrect" (Error.raw c) := by
  refine ⟨E (.raw c) Kind.Unprocessable "OldPassword is incorrect", ?_,
    by simp [E, Error.kind], by simp [E, Error.msg], by simp [E]⟩
  simp [User.Update, User.Sanitize, structsSanitize, User.IsValid, hs, hv, hp, hc]

/-- Witness of the amended C3 on the sample table. -/
theorem Update_wrong_old_password_unprocessable_witness :
    ∃ e, (User.Update sampleEnv bobNew "$2a$10$old secret" (some "wrong") (pgDB table1)).err
        = some e ∧ e.kind = Kind.Unprocessable ∧ e.msg = "OldPassword is incorrect" ∧
      e = Error.classified Kind.Unprocessable "OldPassword is incorrect"
        (Error.raw
          (Cause.other "crypto/bcrypt: hashedPassword is not the hash of the given password")) :=
  Update_wrong_old_password_unprocessable sampleEnv bobNew "$2a$10$old secret" "wrong"
    (pgDB table1)
    (Cause.other "crypto/bcrypt: hashedPassword is not the hash of the given password")
    (by decide) (by decide) (by decide) (by decide)

/-- C4 as stated fails: the probe returns no row, the INSERT is rejected with
unique_violation, and the error Insert returns has kind Internal, not
Conflict. -/
theorem Insert_unique_violation_not_conflict :
    (ListUsers ⟨⟨some ⟨some alice.trimmed.Email⟩⟩⟩ racingDB).1 = [] ∧
    (ListUsers ⟨⟨some ⟨some alice.trimmed.Email⟩⟩⟩ racingDB).2.1 = none ∧
    (racingDB.driver () (Stmt.insertUser "a@x.com" "$2a$10$correct horse" "Alice" "Liddell")).1
      = .error (Cause.pqError "unique_violation") ∧
    (User.Insert sampleEnv alice racingDB).db.log =
      [Stmt.selectUsers (some "a@x.com"),
       Stmt.insertUser "a@x.com" "$2a$10$correct horse" "Alice" "Liddell"] ∧
    ((User.Insert sampleEnv alice racingDB).err.map Error.kind) = some Kind.Internal ∧
    ((User.Insert sampleEnv alice racingDB).err.map Error.kind) ≠ some Kind.Conflict :=
  ⟨by decide, by decide, rfl, by decide, by decide, by decide⟩

/-- C4, amended: when Insert passes sanitation, validation and hashing, the
probe returns no row and the INSERT is rejected by the unique constraint,
Insert returns an error of kind Internal. -/
theorem Insert_unique_violation_internal (env : Env) (u : User) (h : String)
    (db db1 db2 : DB σ)
    (hs : env.sanitizeFault u = none)
    (hv : env.validateStruct u.trimmed = none)
    (hg : env.generateFromPassword u.trimmed.Password DefaultCost = .ok h)
    (hl : ListUsers ⟨⟨some ⟨some u.trimmed.Email⟩⟩⟩ db = ([], none, db1))
    (hi : db1.Get (Stmt.insertUser u.trimmed.Email h u.trimmed.FirstName u.trimmed.LastName)
      = (.error (Cause.pqError "unique_violation"), db2)) :
    ∃ e, (User.Insert env u db).err = some e ∧ e.kind = Kind.Internal ∧
      (User.Insert env u db).db = db2 := by
  refine ⟨E (E (.raw (Cause.pqError "unique_violation")) Kind.Internal "") Kind.Other "", ?_,
    by simp [E, Error.kind], ?_⟩ <;>
  simp [User.Insert, User.Sanitize, structsSanitize, User.IsValid, User.insert, hs, hv, hg, hl, hi]

/-- Witness of the amended C4 on the racing driver. -/
theorem Insert_unique_violation_internal_witness :
    ∃ e, (User.Insert sampleEnv alice racingDB).err = some e ∧ e.kind = Kind.Internal ∧
      (User.Insert sampleEnv alice racingDB).db =
        (racingDB.sent (Stmt.selectUsers (some "a@x.com")) ()).sent
          (Stmt.insertUser "a@x.com" "$2a$10$correct horse" "Alice" "Liddell") () :=
  Insert_unique_violation_internal sampleEnv alice "$2a$10$correct horse" racingDB
    (racingDB.sent (Stmt.selectUsers (some "a@x.com")) ())
    ((racingDB.sent (Stmt.selectUsers (some "a@x.com")) ()).sent
      (Stmt.insertUser "a@x.com" "$2a$10$correct horse" "Alice" "Liddell") ())
    rfl (by decide) rfl rfl rfl

/-- C6 as stated fails: when the Sanitize step fails, the error Insert and
Update return has kind Internal, not Unprocessable. -/
theorem Sanitize_failure_not_unprocessable :
    (User.Sanitize faultyEnv alice).1 ≠ none ∧
    ((User.Insert faultyEnv alice (pgDB table1)).err.map Error.kind) = some Kind.Internal ∧
    ((User.Insert faultyEnv alice (pgDB table1)).err.map Error.kind) ≠ some Kind.Unprocessable ∧
    ((User.Update faultyEnv bobNew "$2a$10$old secret" none (pgDB table1)).err.map Error.kind)
      = some Kind.Internal ∧
    ((User.Update faultyEnv bobNew "$2a$10$old secret" none (pgDB table1)).err.map Error.kind)
      ≠ some Kind.Unprocessable := by
  decide

/-- C6, amended: for every call of Insert or Update, if the Sanitize step
fails the returned error has kind Internal, and if Sanitize succeeds and the
validation step IsValid fails the returned error has kind Unprocessable. -/
theorem Insert_Update_sanitize_validate_kinds (env : Env) (u : User)
    (oldHashedPassword : String) (oldPassword : Option String) (db : DB σ) :
    ((User.Sanitize env u).1 ≠ none →
      (∃ e, (User.Insert env u db).err = some e ∧ e.kind = Kind.Internal) ∧
      (∃ e, (User.Update env u oldHashedPassword oldPassword db).err = some e ∧
        e.kind = Kind.Internal)) ∧
    ((User.Sanitize env u).1 = none → User.IsValid env (User.Sanitize env u).2 ≠ none →
      (∃ e, (User.Insert env u db).err = some e ∧ e.kind = Kind.Unprocessable) ∧
      (∃ e, (User.Update env u oldHashedPassword oldPassword db).err = some e ∧
        e.kind = Kind.Unprocessable)) := by
  constructor
  · intro hs
    cases hf : env.sanitizeFault u with
    | none => simp [User.Sanitize, structsSanitize, hf] at hs
    | some c =>
      constructor
      · exact ⟨E (E (.raw c) Kind.Internal "") Kind.Other "",
          by simp [User.Insert, User.Sanitize, structsSanitize, hf], by simp [E, Error.kind]⟩
      · exact ⟨E (E (.raw c) Kind.Internal "") Kind.Other "",
          by simp [User.Update, User.Sanitize, structsSanitize, hf], by simp [E, Error.kind]⟩
  · intro hs hv
    cases hf : env.sanitizeFault u with
    | some c => simp [User.Sanitize, structsSanitize, hf] at hs
    | none =>
      cases hw : env.validateStruct u.trimmed with
      | none => simp [User.Sanitize, structsSanitize, User.IsValid, hf, hw] at hv
      | some c =>
        constructor
        · exact ⟨E (E (.raw c) Kind.Unprocessable "") Kind.Unprocessable "",
            by simp [User.Insert, User.Sanitize, structsSanitize, User.IsValid, hf, hw],
            by simp [E, Error.kind]⟩
        · exact ⟨E (E (.raw c) Kind.Unprocessable "") Kind.Unprocessable "",
            by simp [User.Update, User.Sanitize, structsSanitize, User.IsValid, hf, hw],
            by simp [E, Error.kind]⟩

/-- Witness of the amended C6: a failing sanitation in `faultyEnv`, and a
password of three characters, which fails validation, in `sampleEnv`. -/
theorem Insert_Update_sanitize_validate_kinds_witness :
    ((∃ e, (User.Insert faultyEnv alice (pgDB table1)).err = some e ∧ e.kind = Kind.Internal) ∧
      (∃ e, (User.Update faultyEnv alice "h" none (pgDB table1)).err = some e ∧
        e.kind = Kind.Internal)) ∧
    ((∃ e, (User.Insert sampleEnv { alice with Password := "abc" } (pgDB table1)).err = some e ∧
        e.kind = Kind.Unprocessable) ∧
      (∃ e, (User.Update sampleEnv { alice with Password := "abc" } "h" none (pgDB table1)).err
        = some e ∧ e.kind = Kind.Unprocessable)) :=
  ⟨(Insert_Update_sanitize_validate_kinds faultyEnv alice "h" none (pgDB table1)).1 (by decide),
   (Insert_Update_sanitize_validate_kinds sampleEnv { alice with Password := "abc" } "h" none
      (pgDB table1)).2 (by decide) (by decide)⟩

/-- C9: when Update fails in sanitation, in validation, in the verification of
the old password or in hashing, it returns an error and the database handle is
the one it was given: no statement was sent and the state of the store,
with every stored row and password hash, is unchanged. -/
theorem Update_error_before_update_no_statement (env : Env) (u : User)
    (oldHashedPassword : String) (oldPassword : Option String) (db : DB σ)
    (h : (User.Sanitize env u).1 ≠ none ∨
      ((User.Sanitize env u).1 = none ∧ User.IsValid env u.trimmed ≠ none) ∨
      ((User.Sanitize env u).1 = none ∧ User.IsValid env u.trimmed = none ∧
        u.trimmed.Password ≠ oldHashedPassword ∧
        ∃ old, oldPassword = some old ∧
          (env.compareHashAndPassword oldHashedPassword old ≠ none ∨
            (env.compareHashAndPassword oldHashedPassword old = none ∧
              ∃ c, env.generateFromPassword u.trimmed.Password DefaultCost = .error c)))) :
    (User.Update env u oldHashedPassword oldPassword db).err ≠ none ∧
    (User.Update env u oldHashedPassword oldPassword db).db = db ∧
    (User.Update env u oldHashedPassword oldPassword db).db.log = db.log ∧
    (User.Update env u oldHashedPassword oldPassword db).db.conn = db.conn := by
  have key : (User.Update env u oldHashedPassword oldPassword db).err ≠ none ∧
      (User.Update env u oldHashedPassword oldPassword db).db = db := by
    cases hf : env.sanitizeFault u with
    | some c => simp [User.Update, User.Sanitize, structsSanitize, hf]
    | none =>
      cases hw : env.validateStruct u.trimmed with
      | some c => simp [User.Update, User.Sanitize, structsSanitize, User.IsValid, hf, hw]
      | none =>
        rcases h with h | h | h
        · simp [User.Sanitize, structsSanitize, hf] at h
        · simp [User.IsValid, hw] at h
        · obtain ⟨_, _, hp, old, ho, hc⟩ := h
          subst ho
          rcases hc with hc | ⟨hc, c, hg⟩
          · cases hx : env.compareHashAndPassword oldHashedPassword old with
            | none => exact absurd hx hc
            | some c =>
              simp [User.Update, User.Sanitize, structsSanitize, User.IsValid, hf, hw, hp, hx]
          · simp [User.Update, User.Sanitize, structsSanitize, User.IsValid, hf, hw, hp, hc, hg]
  exact ⟨key.1, key.2, by rw [key.2], by rw [key.2]⟩

/-- Witness of C9: a wrong old password on the sample table. -/
theorem Update_error_before_update_no_statement_witness :
    (User.Update sampleEnv bobNew "$2a$10$old secret" (some "wrong") (pgDB table1)).err ≠ none ∧
    (User.Update sampleEnv bobNew "$2a$10$old secret" (some "wrong") (pgDB table1)).db
      = pgDB table1 ∧
    (User.Update sampleEnv bobNew "$2a$10$old secret" (some "wrong") (pgDB table1)).db.log
      = [] ∧
    (User.Update sampleEnv bobNew "$2a$10$old secret" (some "wrong") (pgDB table1)).db.conn
      = table1 :=
  Update_error_before_update_no_statement sampleEnv bobNew "$2a$10$old secret" (some "wrong")
    (pgDB table1)
    (Or.inr (Or.inr ⟨by decide, by decide, by decide, "wrong", rfl, Or.inl (by decide)⟩))

/-- A successful Insert on the modelled table passed sanitation, validation
and hashing, found the address and the next identifier free, and appended the
new row. -/
theorem Insert_pg_ok (env : Env) (t : Table) (log : List Stmt) (u : User)
    (hok : (User.Insert env u ⟨t, log, pgRun⟩).err = none) :
    ∃ h, env.sanitizeFault u = none ∧ env.validateStruct u.trimmed = none ∧
      env.generateFromPassword (trimSpace u.Password) DefaultCost = .ok h ∧
      t.rows.any (fun r => decide (r.Email = trimSpace u.Email) || decide (r.ID = t.nextID))
        = false ∧
      (User.Insert env u ⟨t, log, pgRun⟩).u = insertedRow t u h ∧
      (User.Insert env u ⟨t, log, pgRun⟩).db =
        ⟨t.withRow (insertedRow t u h),
          log ++ [Stmt.selectUsers (some (trimSpace u.Email))] ++
            [Stmt.insertUser (trimSpace u.Email) h (trimSpace u.FirstName) (trimSpace u.LastName)],
          pgRun⟩ := by
  cases hf : env.sanitizeFault u with
  | some c => simp [User.Insert, User.Sanitize, structsSanitize, hf] at hok
  | none =>
    cases hw : env.validateStruct u.trimmed with
    | some c => simp [User.Insert, User.Sanitize, structsSanitize, User.IsValid, hf, hw] at hok
    | none =>
      cases hg : env.generateFromPassword (trimSpace u.Password) DefaultCost with
      | error c =>
        simp [User.Insert, User.Sanitize, structsSanitize, User.IsValid, hf, hw, trimmed_ID, trimmed_Email, trimmed_Password, trimmed_FirstName,
              trimmed_LastName,
          hg] at hok
      | ok h =>
        refine ⟨h, rfl, rfl, rfl, ?_⟩
        by_cases hp : t.rows.filter (fun r => decide (r.Email = trimSpace u.Email)) = []
        · by_cases ha : t.rows.any
              (fun r => decide (r.Email = trimSpace u.Email) || decide (r.ID = t.nextID)) = true
          · simp [User.Insert, User.Sanitize, structsSanitize, User.IsValid, hf, hw, trimmed_ID, trimmed_Email, trimmed_Password, trimmed_FirstName,
              trimmed_LastName,
              hg, ListUsers, buildListQuery, DB.Select, DB.Get, DB.sent, pgRun, hp, User.insert,
              ha] at hok
          · simp only [Bool.not_eq_true] at ha
            refine ⟨ha, ?_, ?_⟩ <;>
            simp [User.Insert, User.Sanitize, structsSanitize, User.IsValid, hf, hw, trimmed_ID, trimmed_Email, trimmed_Password, trimmed_FirstName,
              trimmed_LastName,
              hg, ListUsers, buildListQuery, DB.Select, DB.Get, DB.sent, pgRun, hp, User.insert,
              ha, insertedRow, Table.withRow]
        · simp [User.Insert, User.Sanitize, structsSanitize, User.IsValid, hf, hw, trimmed_ID, trimmed_Email, trimmed_Password, trimmed_FirstName,
              trimmed_LastName,
            hg, ListUsers, buildListQuery, DB.Select, DB.Get, DB.sent, pgRun, hp] at hok

/-- When the probe of Insert returns a row, Insert returns Conflict and stops:
the handle it leaves is the one the probe left, and the probe is the only
statement it sent. -/
theorem Insert_probe_hit (env : Env) (u : User) (h : String) (us : List User)
    (db db1 : DB σ)
    (hs : env.sanitizeFault u = none)
    (hv : env.validateStruct u.trimmed = none)
    (hg : env.generateFromPassword (trimSpace u.Password) DefaultCost = .ok h)
    (hl : ListUsers ⟨⟨some ⟨some (trimSpace u.Email)⟩⟩⟩ db = (us, none, db1))
    (hne : us ≠ []) :
    (∃ e, (User.Insert env u db).err = some e ∧ e.kind = Kind.Conflict) ∧
    (User.Insert env u db).db = db1 ∧
    db1.log = db.log ++ [Stmt.selectUsers (some (trimSpace u.Email))] := by
  refine ⟨⟨E (.raw (.other ("user with email " ++ trimSpace u.Email ++ " does already exist")))
      Kind.Conflict ("user with email " ++ trimSpace u.Email ++ " does already exist"), ?_,
      by simp [E, Error.kind]⟩, ?_, ?_⟩
  · simp [User.Insert, User.Sanitize, structsSanitize, User.IsValid, hs, hv, trimmed_Email,
      trimmed_Password, hg, hl, hne]
  · simp [User.Insert, User.Sanitize, structsSanitize, User.IsValid, hs, hv, trimmed_Email,
      trimmed_Password, hg, hl, hne]
  · simp only [ListUsers, buildListQuery, DB.Select] at hl
    rcases hd : db.driver db.conn (Stmt.selectUsers (some (trimSpace u.Email))) with ⟨res, conn⟩
    rw [hd] at hl
    cases res with
    | error c => simp at hl
    | ok rows =>
      simp only [Prod.mk.injEq] at hl
      rw [← hl.2.2]
      rfl

/-- The probe of ListUsers on the modelled table returns the rows with the
given address. -/
theorem ListUsers_pg (t : Table) (log : List Stmt) (email : String) :
    ListUsers ⟨⟨some ⟨some email⟩⟩⟩ (⟨t, log, pgRun⟩ : DB Table) =
      (t.rows.filter (fun r => decide (r.Email = email)), none,
        ⟨t, log ++ [Stmt.selectUsers (some email)], pgRun⟩) := by
  simp [ListUsers, buildListQuery, DB.Select, DB.sent, pgRun]

/-- C5: when Insert passes sanitation, validation and hashing and the probe
(ListUsers with the equality filter on the sanitized address) returns at least
one row, Insert returns an error of kind Conflict and the probe is the only
statement it sends, so the INSERT is not executed; and on the modelled table,
after a successful Insert a second Insert of a valid user with the same
address returns Conflict, sends only the probe and leaves the table as it
was. -/
theorem Insert_existing_email_conflict (env : Env) :
    (∀ (τ : Type) (u : User) (h : String) (us : List User) (db db1 : DB τ),
      env.sanitizeFault u = none → env.validateStruct u.trimmed = none →
      env.generateFromPassword (trimSpace u.Password) DefaultCost = .ok h →
      ListUsers ⟨⟨some ⟨some (trimSpace u.Email)⟩⟩⟩ db = (us, none, db1) → us ≠ [] →
      (∃ e, (User.Insert env u db).err = some e ∧ e.kind = Kind.Conflict) ∧
      (User.Insert env u db).db = db1 ∧
      (User.Insert env u db).db.log = db.log ++ [Stmt.selectUsers (some (trimSpace u.Email))]) ∧
    (∀ (t : Table) (log : List Stmt) (u1 u2 : User) (h2 : String),
      (User.Insert env u1 ⟨t, log, pgRun⟩).err = none →
      trimSpace u2.Email = trimSpace u1.Email →
      env.sanitizeFault u2 = none → env.validateStruct u2.trimmed = none →
      env.generateFromPassword (trimSpace u2.Password) DefaultCost = .ok h2 →
      (∃ e, (User.Insert env u2 (User.Insert env u1 ⟨t, log, pgRun⟩).db).err = some e ∧
        e.kind = Kind.Conflict) ∧
      (User.Insert env u2 (User.Insert env u1 ⟨t, log, pgRun⟩).db).db.conn =
        (User.Insert env u1 ⟨t, log, pgRun⟩).db.conn ∧
      (User.Insert env u2 (User.Insert env u1 ⟨t, log, pgRun⟩).db).db.log =
        (User.Insert env u1 ⟨t, log, pgRun⟩).db.log ++
          [Stmt.selectUsers (some (trimSpace u2.Email))]) := by
  constructor
  · intro τ u h us db db1 hs hv hg hl hne
    obtain ⟨h1, h2, h3⟩ := Insert_probe_hit env u h us db db1 hs hv hg hl hne
    exact ⟨h1, h2, by rw [h2, h3]⟩
  · intro t log u1 u2 h2 hok hem hs hv hg
    obtain ⟨h1, _, _, _, _, _, hdb⟩ := Insert_pg_ok env t log u1 hok
    rw [hdb]
    have hl := ListUsers_pg (t.withRow (insertedRow t u1 h1))
      (log ++ [Stmt.selectUsers (some (trimSpace u1.Email))] ++
        [Stmt.insertUser (trimSpace u1.Email) h1 (trimSpace u1.FirstName) (trimSpace u1.LastName)])
      (trimSpace u2.Email)
    have hne : (t.withRow (insertedRow t u1 h1)).rows.filter
        (fun r => decide (r.Email = trimSpace u2.Email)) ≠ [] := by
      simp [Table.withRow, insertedRow, hem]
    obtain ⟨k1, k2, k3⟩ := Insert_probe_hit env u2 h2 _ _ _ hs hv hg hl hne
    exact ⟨k1, by rw [k2], by rw [k2]⟩

/-- Witness of C5: the probe for the address of the stored row of the sample
table returns that row and Insert stops with Conflict; and inserting `alice`
twice, the first Insert succeeds and the second returns Conflict. -/
theorem Insert_existing_email_conflict_witness :
    ((∃ e, (User.Insert sampleEnv { alice with Email := "b@x.com" } (pgDB table1)).err = some e ∧
        e.kind = Kind.Conflict) ∧
      (User.Insert sampleEnv { alice with Email := "b@x.com" } (pgDB table1)).db =
        (pgDB table1).sent (Stmt.selectUsers (some "b@x.com")) table1 ∧
      (User.Insert sampleEnv { alice with Email := "b@x.com" } (pgDB table1)).db.log =
        [] ++ [Stmt.selectUsers (some (trimSpace "b@x.com"))]) ∧
    (User.Insert sampleEnv alice (pgDB table1)).err = none ∧
    (∃ e, (User.Insert sampleEnv alice (User.Insert sampleEnv alice (pgDB table1)).db).err
        = some e ∧ e.kind = Kind.Conflict) ∧
    (User.Insert sampleEnv alice (User.Insert sampleEnv alice (pgDB table1)).db).db.conn =
      (User.Insert sampleEnv alice (pgDB table1)).db.conn ∧
    (User.Insert sampleEnv alice (User.Insert sampleEnv alice (pgDB table1)).db).db.log =
      (User.Insert sampleEnv alice (pgDB table1)).db.log ++
        [Stmt.selectUsers (some (trimSpace alice.Email))] :=
  ⟨(Insert_existing_email_conflict sampleEnv).1 Table { alice with Email := "b@x.com" }
      "$2a$10$correct horse" table1.rows (pgDB table1)
      ((pgDB table1).sent (Stmt.selectUsers (some "b@x.com")) table1)
      rfl (by decide) rfl rfl (by decide),
   by decide,
   (Insert_existing_email_conflict sampleEnv).2 table1 [] alice alice "$2a$10$correct horse"
     (by decide) rfl rfl (by decide) rfl⟩

/-- C8 as stated fails: Insert succeeds on the sample table, and the row
UserByID then returns has the default of the description column as its
Description, not the sanitized Description of the input. -/
theorem Insert_roundtrip_description_lost :
    (User.Insert sampleEnv alice (pgDB table1)).err = none ∧
    (UserByID (User.Insert sampleEnv alice (pgDB table1)).u.ID
      (User.Insert sampleEnv alice (pgDB table1)).db).2.1 = none ∧
    trimSpace alice.Description = "about me" ∧
    (UserByID (User.Insert sampleEnv alice (pgDB table1)).u.ID
      (User.Insert sampleEnv alice (pgDB table1)).db).1.Description = "" ∧
    (UserByID (User.Insert sampleEnv alice (pgDB table1)).u.ID
      (User.Insert sampleEnv alice (pgDB table1)).db).1.Description
        ≠ trimSpace alice.Description := by
  decide

/-- Trimming is stable: a trimmed string has no white space left to trim. -/
theorem trimSpace_idem (s : String) : trimSpace (trimSpace s) = trimSpace s := by
  have hlist : ∀ m : List Char, m.dropWhile isSpace = m →
      (m.rdropWhile isSpace).dropWhile isSpace = m.rdropWhile isSpace := by
    intro m hm
    obtain ⟨t, ht⟩ := List.rdropWhile_prefix isSpace m
    cases hn : m.rdropWhile isSpace with
    | nil => rfl
    | cons x n =>
      rw [hn] at ht
      have hx : ¬ isSpace x = true := by
        intro hx
        rw [← ht] at hm
        have hlen := congrArg List.length hm
        have hsuf := (List.dropWhile_suffix isSpace (l := n ++ t)).length_le
        simp only [List.cons_append, List.dropWhile_cons, hx, if_true, List.length_cons] at hlen
        omega
      simp [List.dropWhile_cons, hx]
  show String.mk (List.rdropWhile isSpace
      ((String.mk (List.rdropWhile isSpace (s.data.dropWhile isSpace))).data.dropWhile isSpace))
    = String.mk (List.rdropWhile isSpace (s.data.dropWhile isSpace))
  congr 1
  show List.rdropWhile isSpace
      ((List.rdropWhile isSpace (s.data.dropWhile isSpace)).dropWhile isSpace) = _
  rw [hlist _ (List.dropWhile_idempotent isSpace s.data), List.rdropWhile_idempotent]

/-- C8, amended: on the modelled table, after a successful Insert of `u` the
row UserByID returns for the returned identifier has the trimmed Email,
FirstName and LastName of `u`, the default of the description column as its
Description (the INSERT does not bind Description), and a Password that is the
bcrypt hash of the trimmed password and is not the original plaintext, trimmed
or not. -/
theorem Insert_then_UserByID (env : Env) (t : Table) (log : List Stmt) (u : User)
    (hok : (User.Insert env u ⟨t, log, pgRun⟩).err = none) :
    (UserByID (User.Insert env u ⟨t, log, pgRun⟩).u.ID
      (User.Insert env u ⟨t, log, pgRun⟩).db).2.1 = none ∧
    (UserByID (User.Insert env u ⟨t, log, pgRun⟩).u.ID
      (User.Insert env u ⟨t, log, pgRun⟩).db).1 = (User.Insert env u ⟨t, log, pgRun⟩).u ∧
    (User.Insert env u ⟨t, log, pgRun⟩).u.Email = trimSpace u.Email ∧
    (User.Insert env u ⟨t, log, pgRun⟩).u.FirstName = trimSpace u.FirstName ∧
    (User.Insert env u ⟨t, log, pgRun⟩).u.LastName = trimSpace u.LastName ∧
    (User.Insert env u ⟨t, log, pgRun⟩).u.Description = t.descriptionDefault ∧
    env.generateFromPassword (trimSpace u.Password) DefaultCost =
      .ok (User.Insert env u ⟨t, log, pgRun⟩).u.Password ∧
    (User.Insert env u ⟨t, log, pgRun⟩).u.Password ≠ u.Password ∧
    (User.Insert env u ⟨t, log, pgRun⟩).u.Password ≠ trimSpace u.Password := by
  obtain ⟨h, _, _, hg, ha, hu, hdb⟩ := Insert_pg_ok env t log u hok
  have hfil : t.rows.filter (fun r => decide (r.ID = t.nextID)) = [] := by
    rw [List.filter_eq_nil_iff]
    intro a hmem
    have := (List.any_eq_false.mp ha) a hmem
    simp only [Bool.or_eq_true, decide_eq_true_eq, not_or] at this
    simpa using this.2
  have hget : UserByID (insertedRow t u h).ID
      (⟨t.withRow (insertedRow t u h),
        log ++ [Stmt.selectUsers (some (trimSpace u.Email))] ++
          [Stmt.insertUser (trimSpace u.Email) h (trimSpace u.FirstName) (trimSpace u.LastName)],
        pgRun⟩ : DB Table) =
      (insertedRow t u h, none,
        ⟨t.withRow (insertedRow t u h),
          log ++ [Stmt.selectUsers (some (trimSpace u.Email))] ++
            [Stmt.insertUser (trimSpace u.Email) h (trimSpace u.FirstName)
              (trimSpace u.LastName)] ++ [Stmt.selectUserByID (insertedRow t u h).ID],
          pgRun⟩) := by
    simp [UserByID, DB.Get, DB.sent, pgRun, Table.withRow, insertedRow, hfil]
  have hne := env.hash_ne (trimSpace u.Password) DefaultCost h hg
  rw [trimSpace_idem] at hne
  have hplain : h ≠ u.Password := fun heq => hne (by rw [heq])
  have htrim : h ≠ trimSpace u.Password := fun heq => hne (by rw [heq, trimSpace_idem])
  rw [hdb, hu, hget]
  exact ⟨rfl, rfl, rfl, rfl, rfl, rfl, hg, hplain, htrim⟩

/-- Witness of the amended C8: `alice` inserted into the sample table. -/
theorem Insert_then_UserByID_witness :
    (UserByID (User.Insert sampleEnv alice (pgDB table1)).u.ID
      (User.Insert sampleEnv alice (pgDB table1)).db).2.1 = none ∧
    (UserByID (User.Insert sampleEnv alice (pgDB table1)).u.ID
      (User.Insert sampleEnv alice (pgDB table1)).db).1
        = (User.Insert sampleEnv alice (pgDB table1)).u ∧
    (User.Insert sampleEnv alice (pgDB table1)).u.Email = trimSpace alice.Email ∧
    (User.Insert sampleEnv alice (pgDB table1)).u.FirstName = trimSpace alice.FirstName ∧
    (User.Insert sampleEnv alice (pgDB table1)).u.LastName = trimSpace alice.LastName ∧
    (User.Insert sampleEnv alice (pgDB table1)).u.Description = table1.descriptionDefault ∧
    sampleEnv.generateFromPassword (trimSpace alice.Password) DefaultCost =
      .ok (User.Insert sampleEnv alice (pgDB table1)).u.Password ∧
    (User.Insert sampleEnv alice (pgDB table1)).u.Password ≠ alice.Password ∧
    (User.Insert sampleEnv alice (pgDB table1)).u.Password ≠ trimSpace alice.Password :=
  Insert_then_UserByID sampleEnv table1 [] alice (by decide)

/-- The handle an UPDATE by identifier leaves on the modelled table. -/
theorem update_pg_db (t : Table) (log : List Stmt) (u : User) :
    (User.update u ⟨t, log, pgRun⟩).db =
      ⟨{ t with rows := t.rows.map (updatedRow t u.Password u.FirstName u.LastName u.ID),
                now := t.now + 1 },
        log ++ [Stmt.updateUser u.Password u.FirstName u.LastName u.ID], pgRun⟩ := by
  have hrun : pgRun t (Stmt.updateUser u.Password u.FirstName u.LastName u.ID) =
      (.ok ((t.rows.map (updatedRow t u.Password u.FirstName u.LastName u.ID)).filter
          (fun r => decide (r.ID = u.ID))),
        { t with rows := t.rows.map (updatedRow t u.Password u.FirstName u.LastName u.ID),
                 now := t.now + 1 }) := rfl
  simp only [User.update, DB.Get, hrun]
  cases (t.rows.map (updatedRow t u.Password u.FirstName u.LastName u.ID)).filter
      (fun r => decide (r.ID = u.ID)) <;> rfl

/-- Update either leaves the handle as it was or leaves what the physical
update of a user with the identifier of `u` leaves. -/
theorem Update_db_cases (env : Env) (u : User) (oldHashedPassword : String)
    (oldPassword : Option String) (db : DB σ) :
    (User.Update env u oldHashedPassword oldPassword db).db = db ∨
    ∃ v : User, v.ID = u.ID ∧ v.FirstName = trimSpace u.FirstName ∧
      v.LastName = trimSpace u.LastName ∧
      (User.Update env u oldHashedPassword oldPassword db).db = (User.update v db).db := by
  cases hf : env.sanitizeFault u with
  | some c => left; simp [User.Update, User.Sanitize, structsSanitize, hf]
  | none =>
    cases hw : env.validateStruct u.trimmed with
    | some c => left; simp [User.Update, User.Sanitize, structsSanitize, User.IsValid, hf, hw]
    | none =>
      have phys : ∀ v : User,
          (match User.update v db with
            | ⟨some err, u, db⟩ => (⟨some (E err Kind.Other ""), u, db⟩ : Ret σ)
            | ⟨none, u, db⟩ => ⟨none, u, db⟩).db = (User.update v db).db := by
        intro v
        rcases User.update v db with ⟨_ | e, w, d⟩ <;> rfl
      cases oldPassword with
      | none =>
        right
        refine ⟨u.trimmed, rfl, rfl, rfl, ?_⟩
        simp only [User.Update, User.Sanitize, structsSanitize, User.IsValid, hf, hw]
        exact phys _
      | some old =>
        by_cases hp : u.trimmed.Password = oldHashedPassword
        · right
          refine ⟨u.trimmed, rfl, rfl, rfl, ?_⟩
          simp only [User.Update, User.Sanitize, structsSanitize, User.IsValid, hf, hw, hp,
            ne_eq, not_true_eq_false, if_false]
          exact phys _
        · cases hc : env.compareHashAndPassword oldHashedPassword old with
          | some c =>
            left
            simp [User.Update, User.Sanitize, structsSanitize, User.IsValid, hf, hw, hp, hc]
          | none =>
            cases hg : env.generateFromPassword u.trimmed.Password DefaultCost with
            | error c =>
              left
              simp [User.Update, User.Sanitize, structsSanitize, User.IsValid, hf, hw, hp, hc, hg]
            | ok h =>
              right
              refine ⟨{ u.trimmed with Password := h }, rfl, rfl, rfl, ?_⟩
              simp only [User.Update, User.Sanitize, structsSanitize, User.IsValid, hf, hw, hp,
                hc, hg, ne_eq, not_false_eq_true, if_true]
              exact phys _

/-- C10: on the modelled table every Update either sends no statement or sends
one UPDATE that selects by the identifier of `u`; row by row the table after
the call has the identifier, Email, Description and creation time it had
before, and a row with an identifier other than that of `u` is unchanged. -/
theorem Update_frame (env : Env) (u : User) (oldHashedPassword : String)
    (oldPassword : Option String) (t : Table) (log : List Stmt) :
    ((User.Update env u oldHashedPassword oldPassword ⟨t, log, pgRun⟩).db.log = log ∨
      ∃ p f l, (User.Update env u oldHashedPassword oldPassword ⟨t, log, pgRun⟩).db.log =
        log ++ [Stmt.updateUser p f l u.ID]) ∧
    List.Forall₂
      (fun old new => new.ID = old.ID ∧ new.Email = old.Email ∧
        new.Description = old.Description ∧ new.CreatedAt = old.CreatedAt ∧
        (old.ID ≠ u.ID → new = old))
      t.rows (User.Update env u oldHashedPassword oldPassword ⟨t, log, pgRun⟩).db.conn.rows := by
  rcases Update_db_cases env u oldHashedPassword oldPassword (⟨t, log, pgRun⟩ : DB Table) with
    h | ⟨v, hid, _, _, h⟩
  · rw [h]
    refine ⟨Or.inl rfl, ?_⟩
    rw [List.forall₂_same]
    intro x _
    exact ⟨rfl, rfl, rfl, rfl, fun _ => rfl⟩
  · rw [h, update_pg_db, hid]
    refine ⟨Or.inr ⟨v.Password, v.FirstName, v.LastName, rfl⟩, ?_⟩
    show List.Forall₂ _ t.rows (t.rows.map (updatedRow t v.Password v.FirstName v.LastName u.ID))
    rw [List.forall₂_map_right_iff, List.forall₂_same]
    intro x _
    by_cases hx : x.ID = u.ID
    · simp [updatedRow, hx]
    · simp [updatedRow, hx]

end Userlib
